import Mathlib

/-!
Verification of the songclock real-time audio engine.

The definitions below are a shallow embedding of the repository's audio
code:

* `NOTE_FREQUENCIES`, `getNoteFrequency`, `HOUR_NOTES`, `MINUTE_TENS_NOTES`,
  `MINUTE_ONES_NOTES`, `SECOND_TENS_NOTES`, `SECOND_ONES_NOTES` and
  `getTimeNote` embed `src/utils/audio-utils.ts`.  Frequencies are stated
  in hundredths of a hertz (centi-hertz) so that every table entry is a
  natural number (130.81 Hz becomes 13081).  A JavaScript value that may
  be `undefined` (an out-of-bounds array read, and the note-name argument
  flowing into `getNoteFrequency`) is modelled as an `Option`.
* `updateGainWithEnvelope`, the hour effect, the minute-tones effect and
  the second-tones effect embed the persistent-oscillator engine
  (`src/unnamed/part_008`, the component starting at line 1418).
* `scheduleSecondTonesTick` and `referenceToneVolumeTransient` embed the
  transient-voice variant in `src/components/audio-engine.tsx`.
-/

/-- The `NOTE_FREQUENCIES` record of `src/utils/audio-utils.ts`, as an
association list; values are in centi-hertz (hundredths of Hz). -/
def NOTE_FREQUENCIES : List (String × Nat) :=
  [("C3", 13081), ("D3", 14683), ("E3", 16481), ("F3", 17461),
   ("G3", 19600), ("A3", 22000), ("B3", 24694), ("C4", 26163),
   ("D4", 29366), ("E4", 32963), ("F4", 34923), ("G4", 39200),
   ("A4", 44000), ("B4", 49388), ("C5", 52325), ("D5", 58733),
   ("E5", 65925), ("F5", 69846), ("G5", 78399), ("A5", 88000),
   ("B5", 98777), ("C6", 104650), ("D6", 117466)]

/-- `getNoteFrequency` of `src/utils/audio-utils.ts`:
`NOTE_FREQUENCIES[noteName] || 440`.  The argument is an `Option` because
call sites feed it the possibly-`undefined` result of `getTimeNote`; a
missing key, an `undefined` name, or a falsy (zero) table value all fall
back to A4 = 440 Hz (44000 centi-hertz), exactly as `||` does. -/
def getNoteFrequency (noteName : Option String) : Nat :=
  match noteName with
  | none => 44000
  | some s =>
    match NOTE_FREQUENCIES.lookup s with
    | none => 44000
    | some q => if q = 0 then 44000 else q

/-- `HOUR_NOTES` of `src/utils/audio-utils.ts` (index 0 and 12 are both
labelled 12 o'clock). -/
def HOUR_NOTES : List String :=
  ["C4", "C4", "D4", "E4", "F4", "G4", "A4", "B4", "C5", "D5", "E5", "F5", "G5"]

/-- `MINUTE_TENS_NOTES` of `src/utils/audio-utils.ts`. -/
def MINUTE_TENS_NOTES : List String := ["C4", "C4", "D4", "E4", "F4", "G4"]

/-- `MINUTE_ONES_NOTES` of `src/utils/audio-utils.ts`. -/
def MINUTE_ONES_NOTES : List String :=
  ["C4", "C4", "D4", "E4", "F4", "G4", "A4", "B4", "C5", "D5"]

/-- `SECOND_TENS_NOTES` of `src/utils/audio-utils.ts`. -/
def SECOND_TENS_NOTES : List String := ["C5", "C5", "D5", "E5", "F5", "G5"]

/-- `SECOND_ONES_NOTES` of `src/utils/audio-utils.ts`. -/
def SECOND_ONES_NOTES : List String :=
  ["C5", "C5", "D5", "E5", "F5", "G5", "A5", "B5", "C6", "D6"]

/-- The `TimeComponent` union type of `src/utils/audio-utils.ts`. -/
inductive TimeComponent where
  | hour
  | minuteTens
  | minuteOnes
  | secondTens
  | secondOnes
deriving DecidableEq

/-- JavaScript array indexing `l[i]`: `undefined` (`none`) when the index
is negative or past the end of the array. -/
def jsIndex (l : List String) (i : Int) : Option String :=
  if h : 0 ≤ i ∧ i.toNat < l.length then some (l.get ⟨i.toNat, h.2⟩) else none

/-- `getTimeNote` of `src/utils/audio-utils.ts`.  The result is an
`Option String` because the hour branch indexes `HOUR_NOTES` without a
bounds check, which in JavaScript yields `undefined` out of range. -/
def getTimeNote (component : TimeComponent) (value : Int) : Option String :=
  match component with
  | .hour => jsIndex HOUR_NOTES (if value = 0 then 12 else value)
  | .minuteTens =>
    if 0 < value ∧ value < MINUTE_TENS_NOTES.length
    then jsIndex MINUTE_TENS_NOTES value else some "C4"
  | .minuteOnes =>
    if 0 < value ∧ value < MINUTE_ONES_NOTES.length
    then jsIndex MINUTE_ONES_NOTES value else some "C4"
  | .secondTens =>
    if 0 < value ∧ value < SECOND_TENS_NOTES.length
    then jsIndex SECOND_TENS_NOTES value else some "C5"
  | .secondOnes =>
    if 0 < value ∧ value < SECOND_ONES_NOTES.length
    then jsIndex SECOND_ONES_NOTES value else some "C5"

example : getNoteFrequency (getTimeNote .hour 3) = 32963 := by decide
example : getTimeNote .hour 13 = none := by decide
example : getNoteFrequency (getTimeNote .hour 13) = 44000 := by decide
example : getTimeNote .minuteTens 7 = some "C4" := by decide
example : getTimeNote .hour 0 = some "G5" := by decide

/-! ## Automation primitives (`src/unnamed/part_008`) -/

/-- The audio-parameter automation issued by `updateGainWithEnvelope` in
`src/unnamed/part_008`: `cancelScheduledValues(cancelAt)`, then
`setValueAtTime(setVal, setAt)`, then
`linearRampToValueAtTime(rampTarget, rampEnd)`.  Times and gains are
rationals (seconds and linear gain). -/
structure GainSchedule where
  cancelAt : ℚ
  setAt : ℚ
  setVal : ℚ
  rampTarget : ℚ
  rampEnd : ℚ
deriving DecidableEq

set_option linter.unusedVariables false in
/-- `updateGainWithEnvelope` of `src/unnamed/part_008` (lines 1551-1563):
cancels pending automation at `time`, anchors the gain at its current
value `current`, and linearly ramps to `targetVolume` over `attack`
seconds.  The `release` parameter is accepted but unused, as in the
source. -/
def updateGainWithEnvelope (current targetVolume time attack release : ℚ) :
    GainSchedule :=
  { cancelAt := time
    setAt := time
    setVal := current
    rampTarget := targetVolume
    rampEnd := time + attack }

/-- The gain value produced by a `GainSchedule` at time `t`: the anchored
value before `setAt`, linear interpolation during the ramp, and the ramp
target afterwards. -/
def GainSchedule.valueAt (s : GainSchedule) (t : ℚ) : ℚ :=
  if t ≤ s.setAt then s.setVal
  else if t < s.rampEnd then
    s.setVal + (t - s.setAt) * (s.rampTarget - s.setVal) / (s.rampEnd - s.setAt)
  else s.rampTarget

/-! ## Scheduler effects of the persistent-oscillator engine
(`src/unnamed/part_008`, component starting at line 1418) -/

/-- What one scheduler tick does to one sub-channel's gain node:
`envelope peak` is the percussive shape issued to the live digit
(cancel, set to 0, attack to `peak`, decay, release to 0); `fadeOut` is
`updateGainWithEnvelope(gain, 0, now, attack)` issued to a silenced
sub-channel. -/
inductive GainCommand where
  | envelope (peak : ℚ)
  | fadeOut
deriving DecidableEq

/-- The (peak) target gain a `GainCommand` drives its gain node to. -/
def GainCommand.targetGain : GainCommand → ℚ
  | .envelope peak => peak
  | .fadeOut => 0

/-- The minute-tones effect of `src/unnamed/part_008` (lines 1706-1790),
reduced to the pair of gain commands issued to the minute-tens and
minute-ones sub-channels.  `playTens = seconds % 2 == 0`; the selected
digit (when non-zero) receives the percussive envelope peaking at
`soundVolumes.minute * masterVolume`, every other case fades to 0. -/
def minuteTonesEffect (minuteEnabled : Bool) (minuteVolume masterVolume : ℚ)
    (minutes seconds : ℕ) : GainCommand × GainCommand :=
  let minuteTens := minutes / 10
  let minuteOnes := minutes % 10
  if minuteEnabled then
    let playTens := seconds % 2 = 0
    if playTens ∧ 0 < minuteTens then
      (.envelope (minuteVolume * masterVolume), .fadeOut)
    else if ¬playTens ∧ 0 < minuteOnes then
      (.fadeOut, .envelope (minuteVolume * masterVolume))
    else
      (.fadeOut, .fadeOut)
  else
    (.fadeOut, .fadeOut)

/-- The frequency targets the minute-tones effect ramps the two minute
oscillators to (lines 1722-1726 of `src/unnamed/part_008`), in
centi-hertz. -/
def minuteFreqTargets (minutes : ℕ) : ℕ × ℕ :=
  (getNoteFrequency (getTimeNote .minuteTens (minutes / 10 : ℕ)),
   getNoteFrequency (getTimeNote .minuteOnes (minutes % 10 : ℕ)))

/-- The second-tones effect of `src/unnamed/part_008` (lines 1793-1862),
reduced to the gain commands issued to the second-tens and second-ones
sub-channels.  The effect returns early (issues nothing) when the second
toggle is off; otherwise `playTens` holds in quarter-second phases 0 and
2 and the selected non-zero digit receives the envelope peaking at
`soundVolumes.second * masterVolume`. -/
def secondTonesEffect (secondEnabled : Bool) (secondVolume masterVolume : ℚ)
    (seconds quarterSecond : ℕ) : Option (GainCommand × GainCommand) :=
  if ¬secondEnabled then none
  else
    let secondTens := seconds / 10
    let secondOnes := seconds % 10
    let playTens := quarterSecond = 0 ∨ quarterSecond = 2
    if playTens ∧ 0 < secondTens then
      some (.envelope (secondVolume * masterVolume), .fadeOut)
    else if ¬playTens ∧ 0 < secondOnes then
      some (.fadeOut, .envelope (secondVolume * masterVolume))
    else
      some (.fadeOut, .fadeOut)

/-- The frequency targets the second-tones effect ramps the two second
oscillators to (lines 1810-1814 of `src/unnamed/part_008`), in
centi-hertz. -/
def secondFreqTargets (seconds : ℕ) : ℕ × ℕ :=
  (getNoteFrequency (getTimeNote .secondTens (seconds / 10 : ℕ)),
   getNoteFrequency (getTimeNote .secondOnes (seconds % 10 : ℕ)))

/-- The reference-tone effect's target volume (line 1668 of
`src/unnamed/part_008`):
`soundToggles.reference ? soundVolumes.reference * masterVolume : 0`.
The hour effect (line 1699) uses the same formula. -/
def referenceTargetVolume (enabled : Bool) (volume masterVolume : ℚ) : ℚ :=
  if enabled then volume * masterVolume else 0

/-- The output of one run of the hour effect of `src/unnamed/part_008`
(lines 1675-1703): an optional frequency ramp (issued only when the hour
differs from `lastHourRef`), the gain automation (issued on every run),
and the updated `lastHourRef`. -/
structure HourUpdate where
  freqRamp : Option ℕ
  gainRamp : Option GainSchedule
  lastHourAfter : Option ℤ
deriving DecidableEq

/-- The hour effect of `src/unnamed/part_008` (lines 1675-1703): looks up
the hour note, ramps the oscillator frequency only if
`lastHourRef.current !== hours`, and unconditionally issues
`updateGainWithEnvelope(gain, targetVolume, now, 0.2, 0.2)` with
`targetVolume = soundToggles.hour ? soundVolumes.hour * masterVolume : 0`. -/
def hourEffect (lastHour : Option ℤ) (hours : ℤ) (hourEnabled : Bool)
    (hourVolume masterVolume : ℚ) (currentGain now : ℚ) : HourUpdate :=
  let frequency := getNoteFrequency (getTimeNote .hour hours)
  let targetVolume := referenceTargetVolume hourEnabled hourVolume masterVolume
  { freqRamp := if lastHour = some hours then none else some frequency
    gainRamp := some (updateGainWithEnvelope currentGain targetVolume now
      (2/10) (2/10))
    lastHourAfter := if lastHour = some hours then lastHour else some hours }

/-! ## Transient-voice variant (`src/components/audio-engine.tsx`) -/

/-- `getSecondTensNote` of `src/components/audio-engine.tsx`
(lines 838-843). -/
def getSecondTensNote (tens : ℕ) : Option String :=
  if tens = 0 then some "C5" else jsIndex SECOND_TENS_NOTES tens

/-- `getSecondOnesNote` of `src/components/audio-engine.tsx`
(lines 846-851). -/
def getSecondOnesNote (ones : ℕ) : Option String :=
  if ones = 0 then some "C5" else jsIndex SECOND_ONES_NOTES ones

/-- The body of the 250 ms interval installed by `scheduleSecondTones` in
`src/components/audio-engine.tsx` (lines 755-775): reads the wall clock,
derives the quarter-second phase as `floor(milliseconds / 250)`, and
plays the tens note (phases 0 and 2) or the ones note (phases 1 and 3)
when the corresponding digit is non-zero.  Returns the note and volume
of the tone played, or `none` when no tone is played. -/
def scheduleSecondTonesTick (sec ms : ℕ) (volume : ℚ) :
    Option (Option String × ℚ) :=
  let secTens := sec / 10
  let secOnes := sec % 10
  let currentQuarter := ms / 250
  let isTens := currentQuarter = 0 ∨ currentQuarter = 2
  if isTens ∧ 0 < secTens then some (getSecondTensNote secTens, volume)
  else if ¬isTens ∧ 0 < secOnes then some (getSecondOnesNote secOnes, volume)
  else none

/-- The reference-tone volume used by the transient variant in
`src/components/audio-engine.tsx` (lines 611 and 620):
`soundVolumes.reference * masterVolume * 1.2`. -/
def referenceToneVolumeTransient (volume masterVolume : ℚ) : ℚ :=
  volume * masterVolume * (12/10)

/-- Clamping to the unit interval, used to state the spec's
"clamped to [0,1]" requirement on effective volume. -/
def clamp01 (x : ℚ) : ℚ := max 0 (min 1 x)

/-- Attack duration passed to `updateGainWithEnvelope` when the hour or
reference pad is driven to its target (0 on toggle-off); lines 1671 and
1702 of `src/unnamed/part_008` pass `0.2`. -/
def padFadeAttack : ℚ := 2/10

/-- Attack duration used to silence a minute sub-channel
(`updateGainWithEnvelope(gain, 0, now, 0.05)`, lines 1750, 1769,
1772-1773 and 1777-1778 of `src/unnamed/part_008`). -/
def minuteSilenceAttack : ℚ := 5/100

/-- Attack duration used to silence a second sub-channel
(`updateGainWithEnvelope(gain, 0, now, 0.02)`, lines 1832, 1846 and
1849-1850 of `src/unnamed/part_008`). -/
def secondSilenceAttack : ℚ := 2/100

/-- Attack duration used by the seconds-toggle-off effect
(`updateGainWithEnvelope(gain, 0, now, 0.05)`, lines 1872-1873 of
`src/unnamed/part_008`). -/
def secondToggleOffAttack : ℚ := 5/100

/-! ## Helper lemmas -/

/-- `getNoteFrequency` is always positive: a missing name, a missing key
and a zero table entry all fall back to 44000, and a hit returns the
(non-zero) table entry. -/
lemma getNoteFrequency_pos (n : Option String) : 0 < getNoteFrequency n := by
  cases n with
  | none => decide
  | some s =>
    simp only [getNoteFrequency]
    cases h : NOTE_FREQUENCIES.lookup s with
    | none => decide
    | some q =>
      by_cases hq : q = 0 <;> simp [hq] <;> omega

/-- In-bounds JavaScript indexing is defined. -/
lemma jsIndex_isSome (l : List String) (i : Int) (h0 : 0 ≤ i)
    (hl : i.toNat < l.length) : (jsIndex l i).isSome = true := by
  unfold jsIndex
  rw [dif_pos ⟨h0, hl⟩]
  rfl

/-- Out-of-bounds JavaScript indexing is `undefined`. -/
lemma jsIndex_eq_none (l : List String) (i : Int)
    (h : i < 0 ∨ l.length ≤ i.toNat) : jsIndex l i = none := by
  unfold jsIndex
  rw [dif_neg]
  rintro ⟨h0, hl⟩
  rcases h with h | h
  · exact absurd h0 (not_le.mpr h)
  · exact absurd hl (not_lt.mpr h)

/-! ## Claims -/

/-- C4.  Hour pitch lookup: for every hour value in {0, 1..12} the
hour-channel lookup returns exactly the documented table note (index 0
and 12 are G5-terminated per `HOUR_NOTES`), hour 0 is aliased to index
12 (G5), and the resulting frequency is positive for every such hour, so
the hour channel is never silent for hour 0. -/
theorem hour_pitch_table_correct :
    getTimeNote .hour 0 = some "G5" ∧
    getTimeNote .hour 1 = some "C4" ∧
    getTimeNote .hour 2 = some "D4" ∧
    getTimeNote .hour 3 = some "E4" ∧
    getTimeNote .hour 4 = some "F4" ∧
    getTimeNote .hour 5 = some "G4" ∧
    getTimeNote .hour 6 = some "A4" ∧
    getTimeNote .hour 7 = some "B4" ∧
    getTimeNote .hour 8 = some "C5" ∧
    getTimeNote .hour 9 = some "D5" ∧
    getTimeNote .hour 10 = some "E5" ∧
    getTimeNote .hour 11 = some "F5" ∧
    getTimeNote .hour 12 = some "G5" ∧
    getTimeNote .hour 0 = getTimeNote .hour 12 ∧
    getNoteFrequency (getTimeNote .hour 0) = 78399 ∧
    (∀ h : Fin 13, 0 < getNoteFrequency (getTimeNote .hour h.1)) := by
  decide

/-- C1.  Mutual exclusion within each dual-digit pair: for every time
sample and alternation phase, the minute-tones effect and the
second-tones effect give at most one sub-channel of the pair a non-zero
target gain, and the sub-channel not selected by the phase always
receives target gain 0. -/
theorem pair_mutual_exclusion (me : Bool) (mv mm : ℚ) (minutes seconds : ℕ)
    (se : Bool) (sv sm : ℚ) (q : ℕ) :
    ((minuteTonesEffect me mv mm minutes seconds).1.targetGain = 0 ∨
      (minuteTonesEffect me mv mm minutes seconds).2.targetGain = 0) ∧
    (seconds % 2 = 0 →
      (minuteTonesEffect me mv mm minutes seconds).2.targetGain = 0) ∧
    (seconds % 2 ≠ 0 →
      (minuteTonesEffect me mv mm minutes seconds).1.targetGain = 0) ∧
    (∀ cmds, secondTonesEffect se sv sm seconds q = some cmds →
      (cmds.1.targetGain = 0 ∨ cmds.2.targetGain = 0) ∧
      ((q = 0 ∨ q = 2) → cmds.2.targetGain = 0) ∧
      (¬(q = 0 ∨ q = 2) → cmds.1.targetGain = 0)) := by
  refine ⟨?_, ?_, ?_, ?_⟩
  · by_cases hme : me <;> by_cases h2 : seconds % 2 = 0 <;>
      by_cases hT : 0 < minutes / 10 <;> by_cases hO : 0 < minutes % 10 <;>
      simp [minuteTonesEffect, hme, h2, hT, hO, GainCommand.targetGain]
  · intro he
    by_cases hme : me <;> by_cases hT : 0 < minutes / 10 <;>
      simp [minuteTonesEffect, hme, he, hT, GainCommand.targetGain]
  · intro he
    by_cases hme : me <;> by_cases hO : 0 < minutes % 10 <;>
      simp [minuteTonesEffect, hme, he, hO, GainCommand.targetGain]
  · intro cmds hc
    by_cases hse : se <;> by_cases hq0 : q = 0 <;> by_cases hq2 : q = 2 <;>
      by_cases hT : 0 < seconds / 10 <;> by_cases hO : 0 < seconds % 10 <;>
      simp [secondTonesEffect, hse, hq0, hq2, hT, hO] at hc <;>
      (try subst hc) <;>
      simp [GainCommand.targetGain, hq0, hq2]

/-- Witness for C1 at a concrete sample: minutes 35, seconds 36 (even,
so the ones sub-channel is silenced) and the second pair at seconds 42
in quarter-phase 1 (so the tens sub-channel is silenced). -/
theorem pair_mutual_exclusion_witness :
    (minuteTonesEffect true 1 1 35 36).2.targetGain = 0 ∧
    ((minuteTonesEffect true 1 1 35 36).1.targetGain = 0 ∨
      (minuteTonesEffect true 1 1 35 36).2.targetGain = 0) ∧
    (GainCommand.fadeOut, GainCommand.envelope (1 * 1)).1.targetGain = 0 := by
  have h := pair_mutual_exclusion true 1 1 35 36 true 1 1 1
  refine ⟨h.2.1 (by decide), h.1, ?_⟩
  exact (h.2.2.2 (GainCommand.fadeOut, GainCommand.envelope (1 * 1))
    (by simp [secondTonesEffect])).2.2 (by decide)

/-- C6.  Digit zero is rest: whenever the current digit value of a
minute or second sub-channel is 0, the effect gives that sub-channel
target gain 0, for any enabled flag, volume and alternation phase. -/
theorem digit_zero_is_rest (me : Bool) (mv mm sv sm : ℚ)
    (minutes seconds q : ℕ) (se : Bool) :
    (minutes / 10 = 0 →
      (minuteTonesEffect me mv mm minutes seconds).1.targetGain = 0) ∧
    (minutes % 10 = 0 →
      (minuteTonesEffect me mv mm minutes seconds).2.targetGain = 0) ∧
    (∀ cmds, secondTonesEffect se sv sm seconds q = some cmds →
      (seconds / 10 = 0 → cmds.1.targetGain = 0) ∧
      (seconds % 10 = 0 → cmds.2.targetGain = 0)) := by
  refine ⟨?_, ?_, ?_⟩
  · intro h
    by_cases hme : me <;> by_cases h2 : seconds % 2 = 0 <;>
      by_cases hO : 0 < minutes % 10 <;>
      simp [minuteTonesEffect, hme, h2, hO, h, GainCommand.targetGain]
  · intro h
    by_cases hme : me <;> by_cases h2 : seconds % 2 = 0 <;>
      by_cases hT : 0 < minutes / 10 <;>
      simp [minuteTonesEffect, hme, h2, hT, h, GainCommand.targetGain]
  · intro cmds hc
    by_cases hse : se <;> by_cases hq0 : q = 0 <;> by_cases hq2 : q = 2 <;>
      by_cases hT : 0 < seconds / 10 <;> by_cases hO : 0 < seconds % 10 <;>
      simp [secondTonesEffect, hse, hq0, hq2, hT, hO] at hc <;>
      (try subst hc) <;>
      constructor <;> intro h <;>
      simp_all [GainCommand.targetGain]

/-- Witness for C6: minutes 5 (tens digit 0) on an even second, with the
minute channel enabled, carries zero target gain on the tens
sub-channel; seconds 7 (tens digit 0) in quarter-phase 0 carries zero
target gain on the second-tens sub-channel. -/
theorem digit_zero_is_rest_witness :
    (minuteTonesEffect true 1 1 5 0).1.targetGain = 0 ∧
    (GainCommand.fadeOut, GainCommand.fadeOut).1.targetGain = 0 := by
  have h := digit_zero_is_rest true 1 1 1 1 5 7 0 true
  refine ⟨h.1 (by decide), ?_⟩
  exact (h.2.2 (GainCommand.fadeOut, GainCommand.fadeOut)
    (by simp [secondTonesEffect])).1 (by decide)

/-- C2.  Minute alternation: with the minute channel enabled, a positive
effective volume and both minute digits non-zero, the minute-tens
sub-channel receives a non-zero target gain exactly on even seconds and
the minute-ones sub-channel exactly on odd seconds; for minutes = 35 the
tens digit 3 is tuned to E4 (32963 centi-hertz) and the ones digit 5 to
G4 (39200 centi-hertz). -/
theorem minute_alternation (mv mm : ℚ) (minutes seconds : ℕ)
    (hv : 0 < mv * mm) (ht : 0 < minutes / 10) (ho : 0 < minutes % 10) :
    ((minuteTonesEffect true mv mm minutes seconds).1.targetGain ≠ 0 ↔
      seconds % 2 = 0) ∧
    ((minuteTonesEffect true mv mm minutes seconds).2.targetGain ≠ 0 ↔
      seconds % 2 = 1) ∧
    minuteFreqTargets 35 = (32963, 39200) := by
  refine ⟨?_, ?_, by decide⟩
  · by_cases h2 : seconds % 2 = 0 <;>
      simp [minuteTonesEffect, h2, ht, ho, GainCommand.targetGain, hv.ne']
  · by_cases h2 : seconds % 2 = 0 <;>
      simp [minuteTonesEffect, h2, ht, ho, GainCommand.targetGain, hv.ne'] <;>
      omega

/-- Witness for C2 at minutes 35, seconds 36 (even): the tens sub-channel
is the live one. -/
theorem minute_alternation_witness :
    0 < (1 : ℚ) * 1 ∧ 0 < 35 / 10 ∧ 0 < 35 % 10 ∧
    ((minuteTonesEffect true 1 1 35 36).1.targetGain ≠ 0 ↔ 36 % 2 = 0) ∧
    ((minuteTonesEffect true 1 1 35 36).2.targetGain ≠ 0 ↔ 36 % 2 = 1) ∧
    minuteFreqTargets 35 = (32963, 39200) := by
  have h := minute_alternation 1 1 35 36 (by norm_num) (by decide) (by decide)
  exact ⟨by norm_num, by decide, by decide, h.1, h.2.1, h.2.2⟩

/-- C3.  Second-pair quarter-second alternation: the wall-clock-driven
interval body of `scheduleSecondTones` derives the quarter-phase as
`milliseconds / 250`; for seconds = 42 it plays the tens digit 4 (F5) in
phases 0 and 2 and the ones digit 2 (D5) in phases 1 and 3.  In the
persistent engine, with the second channel enabled, positive effective
volume and both digits non-zero, the tens sub-channel is audible exactly
in quarter-phases 0 and 2 and the ones sub-channel exactly in phases 1
and 3. -/
theorem second_quarter_alternation (v sv sm : ℚ) (ms q seconds : ℕ)
    (hv : 0 < sv * sm) (hq : q < 4)
    (ht : 0 < seconds / 10) (ho : 0 < seconds % 10) :
    ((ms / 250 = 0 ∨ ms / 250 = 2) →
      scheduleSecondTonesTick 42 ms v = some (some "F5", v)) ∧
    ((ms / 250 = 1 ∨ ms / 250 = 3) →
      scheduleSecondTonesTick 42 ms v = some (some "D5", v)) ∧
    (∀ cmds, secondTonesEffect true sv sm seconds q = some cmds →
      (cmds.1.targetGain ≠ 0 ↔ (q = 0 ∨ q = 2)) ∧
      (cmds.2.targetGain ≠ 0 ↔ (q = 1 ∨ q = 3))) := by
  refine ⟨?_, ?_, ?_⟩
  · rintro (h | h) <;> simp [scheduleSecondTonesTick, h] <;> decide
  · rintro (h | h) <;> simp [scheduleSecondTonesTick, h] <;> decide
  · intro cmds hc
    by_cases hq0 : q = 0 <;> by_cases hq2 : q = 2 <;>
      simp [secondTonesEffect, hq0, hq2, ht, ho] at hc <;>
      subst hc <;>
      simp [GainCommand.targetGain, hq0, hq2, hv.ne'] <;>
      omega

/-- Witness for C3: at millisecond 300 (phase 1) of second 42 the ones
digit 2 (D5) is the tone played, and in the persistent engine the pair's
command at phase 1 makes the ones sub-channel the audible one. -/
theorem second_quarter_alternation_witness :
    0 < (1 : ℚ) * 1 ∧ (1 : ℕ) < 4 ∧ 0 < 42 / 10 ∧ 0 < 42 % 10 ∧
    scheduleSecondTonesTick 42 300 1 = some (some "D5", 1) ∧
    ((GainCommand.fadeOut, GainCommand.envelope ((1 : ℚ) * 1)).2.targetGain ≠ 0
      ↔ ((1 : ℕ) = 1 ∨ (1 : ℕ) = 3)) := by
  have h := second_quarter_alternation 1 1 1 300 1 42
    (by norm_num) (by decide) (by decide) (by decide)
  refine ⟨by norm_num, by decide, by decide, by decide, ?_, ?_⟩
  · exact h.2.1 (by decide)
  · exact (h.2.2 (GainCommand.fadeOut, GainCommand.envelope (1 * 1))
      (by simp [secondTonesEffect])).2

/-- C5 counterexample: the transient variant's reference channel applies
a 1.2 boost (`soundVolumes.reference * masterVolume * 1.2`), so at full
channel and master volume the issued gain is 6/5, which differs from the
clamped product `clamp01 (1 × 1 × 1) = 1` and even exceeds the interval
[0, 1]. -/
theorem effective_volume_counterexample :
    referenceToneVolumeTransient 1 1 = 6/5 ∧
    clamp01 ((1 : ℚ) * 1 * 1) = 1 ∧
    referenceToneVolumeTransient 1 1 ≠ clamp01 ((1 : ℚ) * 1 * 1) ∧
    1 < referenceToneVolumeTransient 1 1 := by
  refine ⟨?_, ?_, ?_, ?_⟩ <;> norm_num [referenceToneVolumeTransient, clamp01]

/-- C5 (amended).  In the persistent engine, for inputs in their
documented ranges the target gain of every channel equals
`channelVolume × toggle × masterVolume`, which coincides with its clamp
to [0,1] (the code issues the bare product; no clamp is needed because
the product of unit-interval inputs is already in the unit interval):
the reference and hour pads are driven exactly to the clamped product,
and every percussive command of the minute and second effects peaks at
the clamped product or at 0. -/
theorem effective_volume_amended (enabled : Bool) (v m : ℚ)
    (hv0 : 0 ≤ v) (hv1 : v ≤ 1) (hm0 : 0 ≤ m) (hm1 : m ≤ 1) :
    (referenceTargetVolume enabled v m =
      clamp01 (v * (if enabled then (1 : ℚ) else 0) * m)) ∧
    (∀ lh h g now, (hourEffect lh h enabled v m g now).gainRamp =
      some (updateGainWithEnvelope g
        (clamp01 (v * (if enabled then (1 : ℚ) else 0) * m)) now
        padFadeAttack padFadeAttack)) ∧
    (∀ minutes seconds,
      (minuteTonesEffect enabled v m minutes seconds).1.targetGain =
        clamp01 (v * (if enabled then (1 : ℚ) else 0) * m) ∨
      (minuteTonesEffect enabled v m minutes seconds).1.targetGain = 0) ∧
    (∀ minutes seconds,
      (minuteTonesEffect enabled v m minutes seconds).2.targetGain =
        clamp01 (v * (if enabled then (1 : ℚ) else 0) * m) ∨
      (minuteTonesEffect enabled v m minutes seconds).2.targetGain = 0) ∧
    (∀ seconds q cmds, secondTonesEffect enabled v m seconds q = some cmds →
      (cmds.1.targetGain = clamp01 (v * (if enabled then (1 : ℚ) else 0) * m) ∨
        cmds.1.targetGain = 0) ∧
      (cmds.2.targetGain = clamp01 (v * (if enabled then (1 : ℚ) else 0) * m) ∨
        cmds.2.targetGain = 0)) := by
  have h1 : v * m ≤ 1 := mul_le_one₀ hv1 hm0 hm1
  have h0 : 0 ≤ v * m := mul_nonneg hv0 hm0
  have hprod : clamp01 (v * m) = v * m := by
    rw [clamp01, min_eq_right h1, max_eq_right h0]
  have hzero : clamp01 (0 : ℚ) = 0 := by
    norm_num [clamp01]
  refine ⟨?_, ?_, ?_, ?_, ?_⟩
  · cases enabled <;>
      simp [referenceTargetVolume, hprod, hzero]
  · intro lh h g now
    cases enabled <;>
      simp [hourEffect, referenceTargetVolume, hprod, hzero, padFadeAttack]
  · intro minutes seconds
    cases enabled <;>
      by_cases h2 : seconds % 2 = 0 <;>
      by_cases hT : 0 < minutes / 10 <;>
      by_cases hO : 0 < minutes % 10 <;>
      simp [minuteTonesEffect, h2, hT, hO, hprod, hzero,
        GainCommand.targetGain]
  · intro minutes seconds
    cases enabled <;>
      by_cases h2 : seconds % 2 = 0 <;>
      by_cases hT : 0 < minutes / 10 <;>
      by_cases hO : 0 < minutes % 10 <;>
      simp [minuteTonesEffect, h2, hT, hO, hprod, hzero,
        GainCommand.targetGain]
  · intro seconds q cmds hc
    cases enabled <;>
      by_cases hq0 : q = 0 <;> by_cases hq2 : q = 2 <;>
      by_cases hT : 0 < seconds / 10 <;> by_cases hO : 0 < seconds % 10 <;>
      simp [secondTonesEffect, hq0, hq2, hT, hO] at hc <;>
      (try subst hc) <;>
      simp [GainCommand.targetGain, hprod, hzero]

/-- Witness for C5 (amended) at full volumes with the reference channel
enabled. -/
theorem effective_volume_amended_witness :
    (0 : ℚ) ≤ 1 ∧ (1 : ℚ) ≤ 1 ∧
    referenceTargetVolume true 1 1 = clamp01 ((1 : ℚ) * 1 * 1) := by
  have h := effective_volume_amended true 1 1
    (by norm_num) (by norm_num) (by norm_num) (by norm_num)
  refine ⟨by norm_num, by norm_num, ?_⟩
  simpa using h.1

/-- C9 counterexample: `getTimeNote("hour", 13)` indexes past the end of
`HOUR_NOTES` and returns `undefined` (`none`), not a defined default
note; and an out-of-range tens digit is mapped to the default pitch C4
and played (minutes = 70 gives tens digit 7, which passes the
`minuteTens > 0` guard and sounds), rather than being treated as rest. -/
theorem pitch_lookup_counterexample :
    getTimeNote .hour 13 = none ∧
    getTimeNote .minuteTens 7 = some "C4" ∧
    (minuteTonesEffect true 1 1 70 0).1.targetGain ≠ 0 := by
  refine ⟨by decide, by decide, ?_⟩
  norm_num [minuteTonesEffect, GainCommand.targetGain]

/-- C9 (amended).  The pitch lookup is total and never throws: the full
frequency chain always returns a positive frequency; every digit channel
returns a defined note for every integer value (out-of-range digit
values fall back to the channel's default pitch, not to a rest); the
hour channel returns `undefined` (`none`) for values outside {0..12},
which the frequency lookup maps to the 440 Hz default. -/
theorem pitch_lookup_amended (c : TimeComponent) (v : ℤ) :
    0 < getNoteFrequency (getTimeNote c v) ∧
    (c ≠ .hour → (getTimeNote c v).isSome = true) ∧
    (c = .hour → (v < 0 ∨ 12 < v) →
      getTimeNote c v = none ∧ getNoteFrequency (getTimeNote c v) = 44000) := by
  refine ⟨getNoteFrequency_pos _, ?_, ?_⟩
  · intro hc
    cases c with
    | hour => exact absurd rfl hc
    | minuteTens =>
      simp only [getTimeNote]
      split_ifs with h
      · exact jsIndex_isSome _ _ h.1.le (by omega)
      · rfl
    | minuteOnes =>
      simp only [getTimeNote]
      split_ifs with h
      · exact jsIndex_isSome _ _ h.1.le (by omega)
      · rfl
    | secondTens =>
      simp only [getTimeNote]
      split_ifs with h
      · exact jsIndex_isSome _ _ h.1.le (by omega)
      · rfl
    | secondOnes =>
      simp only [getTimeNote]
      split_ifs with h
      · exact jsIndex_isSome _ _ h.1.le (by omega)
      · rfl
  · rintro rfl hrange
    have hnone : getTimeNote .hour v = none := by
      simp only [getTimeNote]
      have hv0 : ¬v = 0 := by omega
      rw [if_neg hv0]
      apply jsIndex_eq_none
      rcases hrange with h | h
      · exact Or.inl h
      · right
        show HOUR_NOTES.length ≤ v.toNat
        have : HOUR_NOTES.length = 13 := by decide
        omega
    exact ⟨hnone, by rw [hnone]; rfl⟩

/-- Witness for C9 (amended) at the minute-tens channel with the
out-of-range digit 7, and at the hour channel with the out-of-range
value 13. -/
theorem pitch_lookup_amended_witness :
    (getTimeNote .minuteTens 7).isSome = true ∧
    getTimeNote .hour 13 = none ∧
    getNoteFrequency (getTimeNote .hour 13) = 44000 ∧
    0 < getNoteFrequency (getTimeNote .minuteTens 7) := by
  have h1 := pitch_lookup_amended .minuteTens 7
  have h2 := pitch_lookup_amended .hour 13
  have h3 := h2.2.2 rfl (by norm_num)
  exact ⟨h1.2.1 (by decide), h3.1, h3.2, h1.1⟩

/-- C10.  Implicit default frequency: `getNoteFrequency` returns exactly
440 Hz (44000 centi-hertz) for an `undefined` note name and for every
name that is not a key of `NOTE_FREQUENCIES`, and consequently the
pitch-lookup chain `getNoteFrequency (getTimeNote c v)` never yields an
undefined or zero frequency. -/
theorem default_frequency_440 (s : String)
    (h : NOTE_FREQUENCIES.lookup s = none) :
    getNoteFrequency (some s) = 44000 ∧
    getNoteFrequency none = 44000 ∧
    (∀ c v, getNoteFrequency (getTimeNote c v) ≠ 0) := by
  refine ⟨?_, rfl, ?_⟩
  · simp only [getNoteFrequency]
    rw [h]
  · intro c v
    have := getNoteFrequency_pos (getTimeNote c v)
    omega

/-- Witness for C10 at the non-key name "H9". -/
theorem default_frequency_440_witness :
    NOTE_FREQUENCIES.lookup "H9" = none ∧
    getNoteFrequency (some "H9") = 44000 ∧
    getNoteFrequency (getTimeNote .hour 13) ≠ 0 := by
  have h := default_frequency_440 "H9" (by decide)
  exact ⟨by decide, h.1, h.2.2 .hour 13⟩

/-- Closed form of a fade-to-zero issued by `updateGainWithEnvelope`: on
the ramp interval the gain is the linear interpolation from the current
value `g0` down to 0. -/
lemma fade_valueAt (g0 now a r t : ℚ) (ha : 0 < a) (h1 : now ≤ t)
    (h2 : t ≤ now + a) :
    (updateGainWithEnvelope g0 0 now a r).valueAt t =
      g0 * (1 - (t - now) / a) := by
  unfold updateGainWithEnvelope GainSchedule.valueAt
  simp only
  have hd : now + a - now = a := by ring
  split_ifs with hle hlt
  · have ht : t = now := le_antisymm hle h1
    rw [ht]
    field_simp
  · rw [hd]
    field_simp
    ring
  · have ht : t = now + a := le_antisymm h2 (not_lt.mp hlt)
    rw [ht]
    field_simp

/-- C7.  Disabling fades, never jumps: the gain automation the engine
issues on toggle-off (`updateGainWithEnvelope(gain, 0, now, attack)`)
anchors the gain at its current value (no discontinuity at `now`),
ramps over a strictly positive duration, decreases monotonically on the
ramp interval, and reaches exactly 0 at its end; and every attack
duration the engine passes on a disable path is strictly positive. -/
theorem disable_fades_never_jumps (g0 now a r : ℚ) (hg : 0 ≤ g0)
    (ha : 0 < a) :
    (updateGainWithEnvelope g0 0 now a r).setAt <
      (updateGainWithEnvelope g0 0 now a r).rampEnd ∧
    (updateGainWithEnvelope g0 0 now a r).valueAt now = g0 ∧
    (updateGainWithEnvelope g0 0 now a r).valueAt (now + a) = 0 ∧
    (∀ t u, now ≤ t → t ≤ u → u ≤ now + a →
      (updateGainWithEnvelope g0 0 now a r).valueAt u ≤
        (updateGainWithEnvelope g0 0 now a r).valueAt t) ∧
    (0 < padFadeAttack ∧ 0 < minuteSilenceAttack ∧
      0 < secondSilenceAttack ∧ 0 < secondToggleOffAttack) := by
  refine ⟨?_, ?_, ?_, ?_, ?_⟩
  · show now < now + a
    linarith
  · rw [fade_valueAt g0 now a r now ha le_rfl (by linarith)]
    simp
  · rw [fade_valueAt g0 now a r (now + a) ha (by linarith) le_rfl]
    field_simp
  · intro t u h1 h2 h3
    rw [fade_valueAt g0 now a r t ha h1 (by linarith),
      fade_valueAt g0 now a r u ha (by linarith) h3]
    have key : g0 * (1 - (t - now) / a) - g0 * (1 - (u - now) / a) =
        g0 * ((u - t) / a) := by
      field_simp
      ring
    have hnn : 0 ≤ g0 * ((u - t) / a) :=
      mul_nonneg hg (div_nonneg (by linarith) ha.le)
    linarith
  · refine ⟨?_, ?_, ?_, ?_⟩ <;>
      norm_num [padFadeAttack, minuteSilenceAttack, secondSilenceAttack,
        secondToggleOffAttack]

/-- Witness for C7: fading a gain of 1 to 0 with the minute silence
attack of 0.05 s starting at time 0: positive duration, continuous
start, monotone step from t = 0 to t = 1/40, and exact zero at the ramp
end. -/
theorem disable_fades_never_jumps_witness :
    (0 : ℚ) ≤ 1 ∧ (0 : ℚ) < 5/100 ∧
    (updateGainWithEnvelope 1 0 0 (5/100) (2/10)).setAt <
      (updateGainWithEnvelope 1 0 0 (5/100) (2/10)).rampEnd ∧
    (updateGainWithEnvelope 1 0 0 (5/100) (2/10)).valueAt 0 = 1 ∧
    (updateGainWithEnvelope 1 0 0 (5/100) (2/10)).valueAt (0 + 5/100) = 0 ∧
    (updateGainWithEnvelope 1 0 0 (5/100) (2/10)).valueAt (1/40) ≤
      (updateGainWithEnvelope 1 0 0 (5/100) (2/10)).valueAt 0 := by
  have h := disable_fades_never_jumps 1 0 (5/100) (2/10)
    (by norm_num) (by norm_num)
  exact ⟨by norm_num, by norm_num, h.1, h.2.1, h.2.2.1,
    h.2.2.2.1 0 (1/40) (by norm_num) (by norm_num) (by norm_num)⟩

/-- C8 counterexample: two successive runs of the hour effect with
identical inputs (hour 5, enabled, full volumes, starting from an empty
`lastHourRef`).  The second run issues no frequency ramp — the
`lastHourRef` guard works — but it does issue a second gain ramp, so
across the two identical calls two gain ramps are issued, not at most
one: the gain parameter is not compared against a last-applied value. -/
theorem update_idempotence_counterexample :
    (hourEffect none 5 true 1 1 0 0).freqRamp = some 39200 ∧
    (hourEffect none 5 true 1 1 0 0).gainRamp.isSome = true ∧
    (hourEffect (hourEffect none 5 true 1 1 0 0).lastHourAfter 5 true 1 1 0 0
      ).freqRamp = none ∧
    (hourEffect (hourEffect none 5 true 1 1 0 0).lastHourAfter 5 true 1 1 0 0
      ).gainRamp.isSome = true := by
  refine ⟨?_, ?_, ?_, ?_⟩
  · show (if (none : Option ℤ) = some 5 then none
      else some (getNoteFrequency (getTimeNote .hour 5))) = some 39200
    decide
  · rfl
  · simp [hourEffect]
  · rfl

/-- C8 (amended).  Idempotence holds for the frequency parameter only: a
second run of the hour effect with identical inputs issues no frequency
ramp (the code compares against the last-applied hour), while the gain
automation is re-issued on every run — but the re-issued ramp is a
cancel-and-supersede from the gain's current value to the same
recomputed target, never a retrigger from zero. -/
theorem update_idempotence_amended (lastHour : Option ℤ) (h : ℤ)
    (enabled : Bool) (v m g g' now now' : ℚ) :
    (hourEffect lastHour h enabled v m g now).lastHourAfter = some h ∧
    (hourEffect (hourEffect lastHour h enabled v m g now).lastHourAfter h
      enabled v m g' now').freqRamp = none ∧
    (hourEffect (hourEffect lastHour h enabled v m g now).lastHourAfter h
      enabled v m g' now').gainRamp =
      some (updateGainWithEnvelope g'
        (referenceTargetVolume enabled v m) now' (2/10) (2/10)) ∧
    ((hourEffect (hourEffect lastHour h enabled v m g now).lastHourAfter h
      enabled v m g' now').gainRamp.map GainSchedule.setVal) = some g' := by
  have hafter : (hourEffect lastHour h enabled v m g now).lastHourAfter =
      some h := by
    unfold hourEffect
    split_ifs with heq
    · simpa using heq
    · rfl
  refine ⟨hafter, ?_, ?_, ?_⟩
  · rw [hafter]
    simp [hourEffect]
  · rw [hafter]
    simp [hourEffect]
  · rw [hafter]
    simp [hourEffect, updateGainWithEnvelope]
